import Mathlib

/-!
# go-socketify: connection registry and dispatch pipeline

A shallow embedding of `websocket.go`, `utils.go`, `event_dispatcher.go` and
`examples/chat_app/main.go`.

Modelling conventions.

* A `*websocket.Conn` is a natural number naming the transport; the nil pointer
  is `none`.  The transport library (gorilla/websocket) is external: calling
  `WriteJSON`, `ReadJSON` or `Close` through a nil `*websocket.Conn`
  dereferences nil inside the library and raises a Go run-time panic.
* A `*Connection` is an address together with the struct stored there (the
  fields of a `Connection` are never reassigned anywhere in the package), so
  pointer equality is equality of `ConnPtr`.
* The Go map `map[*Connection]bool` is the list of its keys in the order in
  which `range` visits them.  Every theorem quantifies over all such lists,
  hence over every iteration order.
* Effects on the outside world (writes on transports, closes, log lines) are
  appended to journals kept in `World`.
* The manager is one built by `NewConnectionManager` (its map is allocated) and
  receivers and `*Connection` arguments are non-nil.
* Goroutine scheduling is not modelled: every function is run to completion
  from a given `World`.
-/

namespace GoSocketify

/-! ## Data model -/

/-- The `Data interface{}` field of a message: an uninterpreted payload. -/
abbrev Payload := String

/-- Go `type Message struct { Event string; Data interface{} }`. -/
structure Message where
  Event : String
  Data : Payload
deriving DecidableEq, Repr

/-- Go `type Connection struct { ID string; Socket *websocket.Conn; Manager *ConnectionManager }`.
`Socket = none` and `Manager = none` are the nil pointers. -/
structure Connection where
  ID : String
  Socket : Option Nat
  Manager : Option Nat
deriving DecidableEq, Repr

/-- A non-nil `*Connection`: the address and the struct it points to. -/
structure ConnPtr where
  addr : Nat
  val : Connection
deriving DecidableEq, Repr

/-- One call of `WriteJSON` on a transport: the transport, the message, and
whether the call returned a nil error. -/
structure WriteRec where
  sock : Nat
  msg : Message
  ok : Bool
deriving DecidableEq, Repr

/-- The state a `ConnectionManager` runs in: the key set of its `connections`
map, the transports whose `WriteJSON` returns an error (with the error text),
the journals of effects, and the counters behind `&Connection` allocation and
`generateConnectionID`. -/
structure World where
  connections : List ConnPtr
  failing : List (Nat × String)
  writes : List WriteRec
  closes : List Nat
  logs : List String
  nextAddr : Nat
  idsIssued : Nat
deriving DecidableEq, Repr

/-- How a call ends: it returns, it panics (a Go run-time panic raised in the
given state), or it never returns (blocked for ever in the given state). -/
inductive Outcome where
  | ok (w : World)
  | panic (w : World)
  | blocked (w : World)
deriving DecidableEq, Repr

/-- The state in which a call ended. -/
def Outcome.world : Outcome → World
  | .ok w => w
  | .panic w => w
  | .blocked w => w

/-- A value of Go type `any` as far as the type assertion `.(string)` can tell. -/
inductive AnyValue where
  | str (s : String)
  | nonString (tag : Nat)
deriving DecidableEq, Repr

/-- Go `type EventDispatcher interface { Dispatch; Broadcast; Send }`. -/
structure EventDispatcher where
  Dispatch : String → Message → World → Outcome
  Broadcast : Message → World → Outcome
  Send : AnyValue → Message → World → Outcome

/-- What one call of `ReadJSON` yields: a decoded message or an error. -/
inductive ReadResult where
  | ok (message : Message)
  | error (err : String)
deriving DecidableEq, Repr

/-! ## Transport and logging primitives -/

/-- The error `WriteJSON` returns on transport `s`, if any. -/
def writeErr (w : World) (s : Nat) : Option String :=
  w.failing.lookup s

/-- Call `WriteJSON(message)` on the (non-nil) transport `s`: the attempt is journalled and
the error, if any, returned. -/
def WriteJSON (s : Nat) (message : Message) (w : World) : Option String × World :=
  (writeErr w s,
    { w with writes := w.writes ++ [⟨s, message, (writeErr w s).isNone⟩] })

/-- Call `Close()` on the (non-nil) transport `s`. -/
def Close (s : Nat) (w : World) : World :=
  { w with closes := w.closes ++ [s] }

/-- Go `log.Printf` / `log.Println`: one line appended to the log. -/
def logLine (line : String) (w : World) : World :=
  { w with logs := w.logs ++ [line] }

/-! ## utils.go -/

/-- Go `generateConnectionID`: `uuid.New().String()`.  The generator is the
stream `gen`; the `n`-th call returns `gen n`. -/
def generateConnectionID (gen : Nat → String) (w : World) : String × World :=
  (gen w.idsIssued, { w with idsIssued := w.idsIssued + 1 })

/-! ## websocket.go -/

/-- Go `NewConnectionManager`: an empty `connections` map.  `failing` fixes
which transports will fail on write. -/
def NewConnectionManager (failing : List (Nat × String)) : World :=
  { connections := [], failing := failing, writes := [], closes := [], logs := [],
    nextAddr := 0, idsIssued := 0 }

/-- Go `m[k] = true` on the key set. -/
def mapInsert (k : ConnPtr) (keys : List ConnPtr) : List ConnPtr :=
  if k ∈ keys then keys else keys ++ [k]

/-- Go `delete(m, k)` on the key set. -/
def mapDelete (k : ConnPtr) (keys : List ConnPtr) : List ConnPtr :=
  keys.filter (fun c => decide (c ≠ k))

/-- Go `ConnectionManager.AddConnection`; `cm` is the receiver's address.  The
goroutine it starts is `handleMessages`, modelled on its own below. -/
def ConnectionManager.AddConnection (gen : Nat → String) (cm : Nat) (conn : Option Nat)
    (w : World) : ConnPtr × World :=
  let g := generateConnectionID gen w
  let connection : ConnPtr := ⟨g.2.nextAddr, ⟨g.1, conn, some cm⟩⟩
  (connection,
    { g.2 with nextAddr := g.2.nextAddr + 1,
               connections := mapInsert connection g.2.connections })

/-- The `for conn := range cm.connections` loop of `Broadcast`. -/
def ConnectionManager.broadcastLoop (message : Message) : List ConnPtr → World → Outcome
  | [], w => .ok w
  | conn :: rest, w =>
    match conn.val.Socket with
    | none => .panic w
    | some s =>
      match WriteJSON s message w with
      | (some err, w1) =>
        broadcastLoop message rest
          (logLine ("Error broadcasting message to " ++ conn.val.ID ++ ": " ++ err) w1)
      | (none, w1) => broadcastLoop message rest w1

/-- Go `ConnectionManager.Broadcast`. -/
def ConnectionManager.Broadcast (message : Message) (w : World) : Outcome :=
  ConnectionManager.broadcastLoop message w.connections w

/-- Go `ConnectionManager.Emit`, on the struct `conn` points to. -/
def ConnectionManager.Emit (conn : Connection) (message : Message) (w : World) : Outcome :=
  match conn.Socket with
  | none => .panic w
  | some s =>
    match WriteJSON s message w with
    | (some err, w1) =>
      .ok (logLine ("Error sending message to " ++ conn.ID ++ ": " ++ err) w1)
    | (none, w1) => .ok w1

/-- The zero value of `Connection` (`var conn Connection`). -/
def zeroConnection : Connection := ⟨"", none, none⟩

/-- The `for c := range cm.connections` loop of `ToConnection`: `conn` is
overwritten by the first `*c` whose ID matches, and the loop breaks. -/
def ConnectionManager.lookupLoop (id : String) : List ConnPtr → Connection → Connection
  | [], conn => conn
  | c :: rest, conn => if c.val.ID = id then c.val else lookupLoop id rest conn

/-- Go `ConnectionManager.ToConnection`. -/
def ConnectionManager.ToConnection (id : String) (message : Message) (w : World) : Outcome :=
  let conn := ConnectionManager.lookupLoop id w.connections zeroConnection
  ConnectionManager.Emit conn message w

/-- Go `ConnectionManager.RemoveConnection`. -/
def ConnectionManager.RemoveConnection (conn : ConnPtr) (w : World) : Outcome :=
  let w1 := { w with connections := mapDelete conn w.connections }
  match conn.val.Socket with
  | none => .panic w1
  | some s => .ok (Close s w1)

/-- A run of the read loop: the calls of `EventDispatcher.Dispatch` it made, in
order, as (connId, message) pairs, and how it ended. -/
structure LoopRun where
  calls : List (String × Message)
  outcome : Outcome

/-- The `for { ... }` loop of `handleMessages`.  `reads` is what the successive
calls of `conn.Socket.ReadJSON` yield; when it is exhausted the next read
blocks for ever.  `ed` is `cm.EventDispatcher` (`none` is the nil interface). -/
def ConnectionManager.readLoop (ed : Option EventDispatcher) (conn : ConnPtr) :
    List ReadResult → World → LoopRun
  | [], w =>
    match conn.val.Socket with
    | none => ⟨[], .panic w⟩
    | some _ => ⟨[], .blocked w⟩
  | r :: rest, w =>
    match conn.val.Socket with
    | none => ⟨[], .panic w⟩
    | some _ =>
      match r with
      | .error err => ⟨[], .ok (logLine ("Error reading message: " ++ err) w)⟩
      | .ok message =>
        match ed with
        | none => ⟨[], .panic w⟩
        | some d =>
          match d.Dispatch conn.val.ID message w with
          | .ok w1 =>
            let run := readLoop ed conn rest w1
            ⟨(conn.val.ID, message) :: run.calls, run.outcome⟩
          | .panic w1 => ⟨[(conn.val.ID, message)], .panic w1⟩
          | .blocked w1 => ⟨[(conn.val.ID, message)], .blocked w1⟩

/-- Go `ConnectionManager.handleMessages`: the loop, then the deferred
`cm.RemoveConnection(conn)`, which also runs while a panic unwinds. -/
def ConnectionManager.handleMessages (ed : Option EventDispatcher) (conn : ConnPtr)
    (reads : List ReadResult) (w : World) : LoopRun :=
  let run := ConnectionManager.readLoop ed conn reads w
  match run.outcome with
  | .ok w1 => ⟨run.calls, ConnectionManager.RemoveConnection conn w1⟩
  | .panic w1 => ⟨run.calls, .panic (ConnectionManager.RemoveConnection conn w1).world⟩
  | .blocked w1 => ⟨run.calls, .blocked w1⟩

/-! ## event_dispatcher.go -/

/-- Go `ExampleEventDispatcher.Dispatch`: every branch only logs. -/
def ExampleEventDispatcher.Dispatch (_connId : String) (message : Message) (w : World) :
    Outcome :=
  if message.Event = "broadcast" then
    .ok (logLine "Unimplemented broadcasting to all users" w)
  else if message.Event = "ping" then
    .ok (logLine "Unimplemented sending data back to user" w)
  else
    .ok (logLine ("Event not handled: " ++ message.Event) w)

/-! ## examples/chat_app/main.go

`newEventDispatcher(*connectionManager)` stores a copy of the manager struct;
the copy's `connections` field is the same map, so the dispatcher's calls act
on the same `World.connections`. -/

/-- Go `eventDispatcher.Broadcast`. -/
def eventDispatcher.Broadcast (msg : Message) (w : World) : Outcome :=
  ConnectionManager.Broadcast msg w

/-- Go `eventDispatcher.Send`. -/
def eventDispatcher.Send (connectionID : AnyValue) (message : Message) (w : World) : Outcome :=
  match connectionID with
  | .str id => ConnectionManager.ToConnection id message w
  | .nonString _ => .ok (logLine "Failed to extract id string from connectionID" w)

/-- Go `eventDispatcher.Dispatch`. -/
def eventDispatcher.Dispatch (connId : String) (message : Message) (w : World) : Outcome :=
  if message.Event = "broadcast" then
    eventDispatcher.Broadcast { message with Event := "broadcastResponse" } w
  else if message.Event = "ping" then
    eventDispatcher.Send (.str connId) { message with Event := "pong" } w
  else
    .ok (logLine ("Event not handled: " ++ message.Event) w)

/-- The chat_app dispatcher as an `EventDispatcher`. -/
def eventDispatcher.asInterface : EventDispatcher :=
  ⟨eventDispatcher.Dispatch, eventDispatcher.Broadcast, eventDispatcher.Send⟩

/-! ## Sequences of manager calls -/

/-- One call on the manager's public surface. -/
inductive Call where
  | AddConnection (cm : Nat) (conn : Option Nat)
  | RemoveConnection (conn : ConnPtr)
  | Broadcast (message : Message)
  | ToConnection (id : String) (message : Message)
deriving DecidableEq, Repr

/-- The state a call leaves behind (also when it panicked and the caller
recovered). -/
def Call.run (gen : Nat → String) : Call → World → World
  | .AddConnection cm conn, w => (ConnectionManager.AddConnection gen cm conn w).2
  | .RemoveConnection conn, w => (ConnectionManager.RemoveConnection conn w).world
  | .Broadcast message, w => (ConnectionManager.Broadcast message w).world
  | .ToConnection id message, w => (ConnectionManager.ToConnection id message w).world

/-- Run a sequence of calls from left to right. -/
def runCalls (gen : Nat → String) : List Call → World → World
  | [], w => w
  | c :: cs, w => runCalls gen cs (c.run gen w)

/-- Whether a `WriteJSON` on the connection's transport returns a nil error in `w`. -/
def writable (w : World) (c : ConnPtr) : Bool :=
  match c.val.Socket with
  | some s => (writeErr w s).isNone
  | none => false

/-- The journal entry `WriteJSON` made for connection `c`: on its transport,
carrying `message`, successful exactly when the transport is not a failing one. -/
def JournalFor (w : World) (message : Message) (c : ConnPtr) (r : WriteRec) : Prop :=
  c.val.Socket = some r.sock ∧ r.msg = message ∧ r.ok = (writeErr w r.sock).isNone

instance JournalFor.instDecidable (w : World) (message : Message) (c : ConnPtr) (r : WriteRec) :
    Decidable (JournalFor w message c r) := by
  unfold JournalFor
  infer_instance

/-- The registry invariant: registered IDs are pairwise distinct and each was
issued by one of the first `idsIssued` calls of the generator. -/
def RegistryInv (gen : Nat → String) (w : World) : Prop :=
  w.connections.Pairwise (fun a b => a.val.ID ≠ b.val.ID) ∧
    ∀ c ∈ w.connections, ∃ i, i < w.idsIssued ∧ c.val.ID = gen i

instance RegistryInv.instDecidable (gen : Nat → String) (w : World) :
    Decidable (RegistryInv gen w) := by
  unfold RegistryInv
  infer_instance

/-! ## Sample states -/

/-- A generator that never repeats: the `n`-th ID is `n + 1` letters long. -/
def sampleGen (n : Nat) : String := String.mk (List.replicate (n + 1) 'c')

/-- A manager with two admitted connections: A on transport 1, B on transport 2. -/
def sampleWorld : World :=
  (ConnectionManager.AddConnection sampleGen 0 (some 2)
    (ConnectionManager.AddConnection sampleGen 0 (some 1)
      (NewConnectionManager [])).2).2

/-- Connection A of `sampleWorld`. -/
def sampleA : ConnPtr := ⟨0, ⟨"c", some 1, some 0⟩⟩

/-- Connection B of `sampleWorld`. -/
def sampleB : ConnPtr := ⟨1, ⟨"cc", some 2, some 0⟩⟩

/-- Three admitted connections on transports 1, 2, 3, of which transport 2 fails on write. -/
def sampleLossy : World :=
  (ConnectionManager.AddConnection sampleGen 0 (some 3)
    { sampleWorld with failing := [(2, "broken pipe")] }).2

/-- A dispatcher that only logs: `ExampleEventDispatcher.Dispatch`, with `Broadcast` and
`Send` doing nothing. -/
def sampleDispatcher : EventDispatcher :=
  ⟨ExampleEventDispatcher.Dispatch, fun _ w => .ok w, fun _ _ w => .ok w⟩

/-- A connection that was never admitted. -/
def sampleStray : ConnPtr := ⟨9, ⟨"zz", some 5, some 0⟩⟩

/-- A sample run of the manager: admit A and B, remove A, broadcast, unicast
to an unknown id, admit a third connection. -/
def sampleCalls : List Call :=
  [Call.AddConnection 0 (some 1), Call.AddConnection 0 (some 2), Call.RemoveConnection sampleA,
    Call.Broadcast ⟨"news", "hi"⟩, Call.ToConnection "gone" ⟨"pong", ""⟩,
    Call.AddConnection 0 (some 3)]

/-! ## Unicast to an unknown identity (C1) -/

/-- When no registered connection holds `id`, the lookup loop leaves `conn` untouched. -/
theorem lookupLoop_absent (id : String) (conn : Connection) (keys : List ConnPtr)
    (h : ∀ c ∈ keys, c.val.ID ≠ id) :
    ConnectionManager.lookupLoop id keys conn = conn := by
  induction keys with
  | nil => rfl
  | cons c rest ih =>
    have hc : c.val.ID ≠ id := h c (List.mem_cons_self c rest)
    have hrest : ∀ x ∈ rest, x.val.ID ≠ id := fun x hx => h x (List.mem_cons_of_mem c hx)
    simp [ConnectionManager.lookupLoop, hc, ih hrest]

/-- For every state and every id held by no registered connection, `ToConnection`
calls `Emit` on the zero-value `Connection` and panics on its nil `Socket`. -/
theorem ToConnection_absent_panics (id : String) (message : Message) (w : World)
    (h : ∀ c ∈ w.connections, c.val.ID ≠ id) :
    ConnectionManager.ToConnection id message w = Outcome.panic w := by
  unfold ConnectionManager.ToConnection
  rw [lookupLoop_absent id zeroConnection w.connections h]
  rfl

/-- C1 (code defect): with connections A and B registered, `ToConnection` for an id
that no registered connection holds does not return: `Emit` is called on the
zero-value `Connection`, whose `Socket` is nil, and the write panics. -/
theorem ToConnection_unknown_id_crashes :
    ConnectionManager.ToConnection "gone" ⟨"pong", ""⟩ sampleWorld = Outcome.panic sampleWorld ∧
      ∀ c ∈ sampleWorld.connections, c.val.ID ≠ "gone" := by
  decide

/-! ## Removal (C2, C3) -/

theorem mem_mapDelete (k x : ConnPtr) (keys : List ConnPtr) :
    x ∈ mapDelete k keys ↔ x ∈ keys ∧ x ≠ k := by
  simp [mapDelete]

theorem mapDelete_of_not_mem (k : ConnPtr) (keys : List ConnPtr) (h : k ∉ keys) :
    mapDelete k keys = keys := by
  unfold mapDelete
  rw [List.filter_eq_self]
  intro a ha
  have : a ≠ k := fun e => h (e ▸ ha)
  simp [this]

theorem mapDelete_idem (k : ConnPtr) (keys : List ConnPtr) :
    mapDelete k (mapDelete k keys) = mapDelete k keys :=
  mapDelete_of_not_mem k _ (fun h => ((mem_mapDelete k k keys).1 h).2 rfl)

theorem RemoveConnection_world_connections (conn : ConnPtr) (w : World) :
    (ConnectionManager.RemoveConnection conn w).world.connections =
      mapDelete conn w.connections := by
  unfold ConnectionManager.RemoveConnection
  cases conn.val.Socket <;> rfl

theorem RemoveConnection_of_socket (conn : ConnPtr) (w : World) (s : Nat)
    (h : conn.val.Socket = some s) :
    ConnectionManager.RemoveConnection conn w =
      Outcome.ok (Close s { w with connections := mapDelete conn w.connections }) := by
  simp [ConnectionManager.RemoveConnection, h]

/-- C2 (as stated, refuted): removing connection A of the sample state twice
calls `Close` on its transport (transport 1) twice, not once. -/
theorem RemoveConnection_twice_closes_twice :
    (ConnectionManager.RemoveConnection sampleA
        (ConnectionManager.RemoveConnection sampleA sampleWorld).world).world.closes = [1, 1] ∧
      ¬ ((ConnectionManager.RemoveConnection sampleA
        (ConnectionManager.RemoveConnection sampleA sampleWorld).world).world.closes.count 1 =
          sampleWorld.closes.count 1 + 1) := by
  decide

/-- C2 (amended): for a connection with a transport handle `s`, two calls of
`RemoveConnection` in a row both return; the second leaves the registry, the
write journal, the log and the set of closed transports exactly as the first
left them; `Close` is called on the handle once per call, twice in all. -/
theorem RemoveConnection_twice (conn : ConnPtr) (w : World) (s : Nat)
    (h : conn.val.Socket = some s) :
    ∃ w1 w2, ConnectionManager.RemoveConnection conn w = Outcome.ok w1 ∧
      ConnectionManager.RemoveConnection conn w1 = Outcome.ok w2 ∧
      w2.connections = w1.connections ∧ w2.writes = w1.writes ∧ w2.logs = w1.logs ∧
      w2.failing = w1.failing ∧ (∀ t, t ∈ w2.closes ↔ t ∈ w1.closes) ∧
      w1.closes = w.closes ++ [s] ∧ w2.closes = w.closes ++ [s, s] := by
  refine ⟨_, _, RemoveConnection_of_socket conn w s h, RemoveConnection_of_socket conn _ s h,
    ?_, rfl, rfl, rfl, ?_, rfl, ?_⟩
  · simp [Close, mapDelete_idem]
  · intro t
    simp [Close]
  · simp [Close]

/-- Removing connection A of the sample state twice. -/
theorem RemoveConnection_twice_witness :
    sampleA.val.Socket = some 1 ∧
    ∃ w1 w2, ConnectionManager.RemoveConnection sampleA sampleWorld = Outcome.ok w1 ∧
      ConnectionManager.RemoveConnection sampleA w1 = Outcome.ok w2 ∧
      w2.connections = w1.connections ∧ w2.writes = w1.writes ∧ w2.logs = w1.logs ∧
      w2.failing = w1.failing ∧ (∀ t, t ∈ w2.closes ↔ t ∈ w1.closes) ∧
      w1.closes = sampleWorld.closes ++ [1] ∧ w2.closes = sampleWorld.closes ++ [1, 1] :=
  ⟨rfl, RemoveConnection_twice sampleA sampleWorld 1 rfl⟩

/-- C3: `RemoveConnection` on a connection that is not registered leaves the
registry as it was; on a registered connection the registry afterwards holds
exactly the connections it held before other than that one; and for every
connection with a transport handle the call returns (it has no error result
and does not panic). -/
theorem RemoveConnection_registry (conn : ConnPtr) (w : World) :
    (conn ∉ w.connections →
      (ConnectionManager.RemoveConnection conn w).world.connections = w.connections) ∧
    (conn ∈ w.connections →
      conn ∉ (ConnectionManager.RemoveConnection conn w).world.connections ∧
      ∀ x, x ∈ (ConnectionManager.RemoveConnection conn w).world.connections ↔
        (x ∈ w.connections ∧ x ≠ conn)) ∧
    (∀ s, conn.val.Socket = some s →
      ∃ w1, ConnectionManager.RemoveConnection conn w = Outcome.ok w1) := by
  refine ⟨fun h => ?_, fun _ => ⟨?_, fun x => ?_⟩, fun s hs => ⟨_, RemoveConnection_of_socket conn w s hs⟩⟩
  · rw [RemoveConnection_world_connections, mapDelete_of_not_mem conn _ h]
  · rw [RemoveConnection_world_connections]
    exact fun hm => ((mem_mapDelete conn conn _).1 hm).2 rfl
  · rw [RemoveConnection_world_connections]
    exact mem_mapDelete conn x _

/-- Removing a stray connection, and connection A, from the sample state. -/
theorem RemoveConnection_registry_witness :
    (sampleStray ∉ sampleWorld.connections ∧
      (ConnectionManager.RemoveConnection sampleStray sampleWorld).world.connections =
        sampleWorld.connections) ∧
    (sampleA ∈ sampleWorld.connections ∧
      sampleA ∉ (ConnectionManager.RemoveConnection sampleA sampleWorld).world.connections) ∧
    (sampleA.val.Socket = some 1 ∧
      ∃ w1, ConnectionManager.RemoveConnection sampleA sampleWorld = Outcome.ok w1) :=
  ⟨⟨by decide, (RemoveConnection_registry sampleStray sampleWorld).1 (by decide)⟩,
    ⟨by decide, ((RemoveConnection_registry sampleA sampleWorld).2.1 (by decide)).1⟩,
    ⟨rfl, (RemoveConnection_registry sampleA sampleWorld).2.2 1 rfl⟩⟩

/-! ## Broadcast (C4, C9) -/

theorem writeErr_congr (w w1 : World) (h : w1.failing = w.failing) (s : Nat) :
    writeErr w1 s = writeErr w s := by
  simp [writeErr, h]

/-- The broadcast loop over keys that all carry a transport returns, and its
write journal is in one-to-one, in-order correspondence with the keys. -/
theorem broadcastLoop_journal (message : Message) (keys : List ConnPtr) :
    ∀ w : World, (∀ c ∈ keys, c.val.Socket ≠ none) →
    ∃ w1 journal, ConnectionManager.broadcastLoop message keys w = Outcome.ok w1 ∧
      w1.writes = w.writes ++ journal ∧ w1.connections = w.connections ∧
      w1.closes = w.closes ∧ w1.failing = w.failing ∧
      List.Forall₂ (JournalFor w message) keys journal := by
  induction keys with
  | nil =>
    intro w _
    exact ⟨w, [], rfl, by simp, rfl, rfl, rfl, List.Forall₂.nil⟩
  | cons c rest ih =>
    intro w h
    obtain ⟨s, hs⟩ : ∃ s, c.val.Socket = some s :=
      Option.ne_none_iff_exists'.1 (h c (List.mem_cons_self c rest))
    have hrest : ∀ x ∈ rest, x.val.Socket ≠ none := fun x hx => h x (List.mem_cons_of_mem c hx)
    have key : ∀ w2 : World, w2.writes = w.writes ++ [⟨s, message, (writeErr w s).isNone⟩] →
        w2.connections = w.connections → w2.closes = w.closes → w2.failing = w.failing →
        ∃ w1 journal, ConnectionManager.broadcastLoop message rest w2 = Outcome.ok w1 ∧
          w1.writes = w.writes ++ journal ∧ w1.connections = w.connections ∧
          w1.closes = w.closes ∧ w1.failing = w.failing ∧
          List.Forall₂ (JournalFor w message) (c :: rest) journal := by
      intro w2 hw hc hcl hf
      obtain ⟨w1, j, hrun, hj, hcon, hclo, hfail, hall⟩ := ih w2 hrest
      refine ⟨w1, ⟨s, message, (writeErr w s).isNone⟩ :: j, hrun, ?_, hcon.trans hc,
        hclo.trans hcl, hfail.trans hf, List.Forall₂.cons ⟨hs, rfl, rfl⟩ ?_⟩
      · rw [hj, hw, List.append_assoc]
        rfl
      · refine hall.imp ?_
        intro x r hx
        exact ⟨hx.1, hx.2.1, by rw [hx.2.2, writeErr_congr w w2 hf]⟩
    cases he : writeErr w s with
    | none =>
      have hstep : ConnectionManager.broadcastLoop message (c :: rest) w =
          ConnectionManager.broadcastLoop message rest
            { w with writes := w.writes ++ [⟨s, message, (writeErr w s).isNone⟩] } := by
        simp [ConnectionManager.broadcastLoop, hs, WriteJSON, he]
      rw [hstep]
      exact key _ rfl rfl rfl rfl
    | some err =>
      have hstep : ConnectionManager.broadcastLoop message (c :: rest) w =
          ConnectionManager.broadcastLoop message rest
            (logLine ("Error broadcasting message to " ++ c.val.ID ++ ": " ++ err)
              { w with writes := w.writes ++ [⟨s, message, (writeErr w s).isNone⟩] }) := by
        simp [ConnectionManager.broadcastLoop, hs, WriteJSON, he]
      rw [hstep]
      exact key _ rfl rfl rfl rfl

/-- Successful journal entries are as many as writable keys. -/
theorem countP_ok_of_journal (w : World) (message : Message) (keys : List ConnPtr)
    (journal : List WriteRec) (h : List.Forall₂ (JournalFor w message) keys journal) :
    journal.countP (fun r => r.ok) = keys.countP (writable w) := by
  induction h with
  | nil => rfl
  | @cons c r ks js hcr _ ih =>
    have hw : writable w c = r.ok := by
      simp [writable, hcr.1, hcr.2.2]
    rw [List.countP_cons, List.countP_cons, ih, hw]

/-- Every journal entry carries the broadcast message. -/
theorem msg_of_journal (w : World) (message : Message) (keys : List ConnPtr)
    (journal : List WriteRec) (h : List.Forall₂ (JournalFor w message) keys journal) :
    ∀ r ∈ journal, r.msg = message := by
  induction h with
  | nil => intro r hr; cases hr
  | @cons c r1 ks js hcr _ ih =>
    intro r hr
    rcases List.mem_cons.1 hr with e | hmem
    · rw [e]; exact hcr.2.1
    · exact ih r hmem

/-- Every writable key has its successful entry in the journal. -/
theorem mem_journal_of_writable (w : World) (message : Message) (keys : List ConnPtr)
    (journal : List WriteRec) (h : List.Forall₂ (JournalFor w message) keys journal)
    (c : ConnPtr) (hc : c ∈ keys) (s : Nat) (hs : c.val.Socket = some s)
    (hok : writeErr w s = none) : (⟨s, message, true⟩ : WriteRec) ∈ journal := by
  induction h with
  | nil => cases hc
  | @cons c1 r ks js hcr _ ih =>
    rcases List.mem_cons.1 hc with e | hmem
    · subst e
      have hsock : r.sock = s := by
        have := hcr.1
        rw [hs] at this
        exact (Option.some.inj this).symm
      have hr : r = ⟨s, message, true⟩ := by
        cases r with
        | mk rs rm rk =>
          simp only at hsock
          subst hsock
          have h2 := hcr.2.1
          have h3 := hcr.2.2
          simp only at h2 h3
          rw [h2, h3, hok]
          rfl
      rw [hr]
      exact List.mem_cons_self _ _
    · exact List.mem_cons_of_mem _ (ih hmem)

/-- C4: for every registry whose connections carry a transport and every
assignment of failing transports, `Broadcast` returns having made exactly one
`WriteJSON` attempt of `message` per registered connection (the journal
matches the registry one to one, in iteration order); every connection whose
transport does not fail has its successful write in the journal; the number of
successful writes is the number of connections with a non-failing transport,
so with exactly one failing connection the other N-1 are delivered. -/
theorem Broadcast_isolates_failures (message : Message) (w : World)
    (h : ∀ c ∈ w.connections, c.val.Socket ≠ none) :
    ∃ w1 journal, ConnectionManager.Broadcast message w = Outcome.ok w1 ∧
      w1.writes = w.writes ++ journal ∧ w1.connections = w.connections ∧
      w1.closes = w.closes ∧
      List.Forall₂ (JournalFor w message) w.connections journal ∧
      journal.length = w.connections.length ∧
      (∀ c ∈ w.connections, ∀ s, c.val.Socket = some s → writeErr w s = none →
        (⟨s, message, true⟩ : WriteRec) ∈ journal) ∧
      journal.countP (fun r => r.ok) = w.connections.countP (writable w) ∧
      (w.connections.countP (fun c => ¬ writable w c) = 1 →
        journal.countP (fun r => r.ok) = w.connections.length - 1) := by
  obtain ⟨w1, j, hrun, hj, hcon, hclo, _, hall⟩ := broadcastLoop_journal message w.connections w h
  refine ⟨w1, j, hrun, hj, hcon, hclo, hall, hall.length_eq.symm,
    fun c hc s hs hok => mem_journal_of_writable w message _ j hall c hc s hs hok,
    countP_ok_of_journal w message _ j hall, fun hone => ?_⟩
  rw [countP_ok_of_journal w message _ j hall]
  have := List.length_eq_countP_add_countP (p := writable w) w.connections
  omega

/-- Broadcast to three connections of which the second fails: the other two are delivered. -/
theorem Broadcast_isolates_failures_witness :
    ((∀ c ∈ sampleLossy.connections, c.val.Socket ≠ none) ∧
      sampleLossy.connections.countP (fun c => ¬ writable sampleLossy c) = 1) ∧
    ∃ w1 journal, ConnectionManager.Broadcast ⟨"news", "hi"⟩ sampleLossy = Outcome.ok w1 ∧
      w1.writes = sampleLossy.writes ++ journal ∧
      journal.length = 3 ∧ journal.countP (fun r => r.ok) = 2 ∧
      (⟨1, ⟨"news", "hi"⟩, true⟩ : WriteRec) ∈ journal ∧
      (⟨3, ⟨"news", "hi"⟩, true⟩ : WriteRec) ∈ journal := by
  obtain ⟨w1, j, h1, h2, _, _, _, h6, h7, _, h9⟩ :=
    Broadcast_isolates_failures ⟨"news", "hi"⟩ sampleLossy (by decide)
  exact ⟨⟨by decide, by decide⟩, w1, j, h1, h2, h6, h9 (by decide),
    h7 ⟨0, ⟨"c", some 1, some 0⟩⟩ (by decide) 1 rfl (by decide),
    h7 ⟨2, ⟨"ccc", some 3, some 0⟩⟩ (by decide) 3 rfl (by decide)⟩

/-- C9: for every registry whose connections carry a transport, every sender id
and every payload `d`, the chat_app `Dispatch` of the event "broadcast" returns
having made exactly one `WriteJSON` per registered connection, each carrying the
message "broadcastResponse" with payload `d`, and no other write (in particular
no direct reply to the sender); registry and closes are untouched. -/
theorem Dispatch_broadcast_rebroadcasts (connId : String) (d : Payload) (w : World)
    (h : ∀ c ∈ w.connections, c.val.Socket ≠ none) :
    ∃ w1 journal, eventDispatcher.Dispatch connId ⟨"broadcast", d⟩ w = Outcome.ok w1 ∧
      w1.writes = w.writes ++ journal ∧
      List.Forall₂ (JournalFor w ⟨"broadcastResponse", d⟩) w.connections journal ∧
      journal.length = w.connections.length ∧
      (∀ r ∈ journal, r.msg = ⟨"broadcastResponse", d⟩) ∧
      w1.connections = w.connections ∧ w1.closes = w.closes := by
  obtain ⟨w1, j, hrun, hj, hcon, hclo, _, hall⟩ :=
    broadcastLoop_journal ⟨"broadcastResponse", d⟩ w.connections w h
  have hd : eventDispatcher.Dispatch connId ⟨"broadcast", d⟩ w =
      ConnectionManager.broadcastLoop ⟨"broadcastResponse", d⟩ w.connections w := by
    simp [eventDispatcher.Dispatch, eventDispatcher.Broadcast, ConnectionManager.Broadcast]
  exact ⟨w1, j, hd.trans hrun, hj, hall, hall.length_eq.symm, msg_of_journal w _ _ j hall,
    hcon, hclo⟩

/-- Connection A of the sample state sends a "broadcast" event: A and B each get one "broadcastResponse". -/
theorem Dispatch_broadcast_rebroadcasts_witness :
    (∀ c ∈ sampleWorld.connections, c.val.Socket ≠ none) ∧
    (∃ w1 journal, eventDispatcher.Dispatch "c" ⟨"broadcast", "hi"⟩ sampleWorld = Outcome.ok w1 ∧
      w1.writes = sampleWorld.writes ++ journal ∧
      List.Forall₂ (JournalFor sampleWorld ⟨"broadcastResponse", "hi"⟩)
        sampleWorld.connections journal ∧
      journal.length = sampleWorld.connections.length ∧
      (∀ r ∈ journal, r.msg = ⟨"broadcastResponse", "hi"⟩) ∧
      w1.connections = sampleWorld.connections ∧ w1.closes = sampleWorld.closes) ∧
    (eventDispatcher.Dispatch "c" ⟨"broadcast", "hi"⟩ sampleWorld).world.writes =
      [⟨1, ⟨"broadcastResponse", "hi"⟩, true⟩, ⟨2, ⟨"broadcastResponse", "hi"⟩, true⟩] :=
  ⟨by decide, Dispatch_broadcast_rebroadcasts "c" "hi" sampleWorld (by decide), by decide⟩

/-! ## Unicast to a known identity (C5) -/

/-- With pairwise distinct IDs, the lookup loop stops at the one registered
connection holding `id`, whatever the iteration order. -/
theorem lookupLoop_present (id : String) (c : ConnPtr) (hid : c.val.ID = id)
    (conn : Connection) (keys : List ConnPtr)
    (hd : keys.Pairwise (fun a b => a.val.ID ≠ b.val.ID)) (hc : c ∈ keys) :
    ConnectionManager.lookupLoop id keys conn = c.val := by
  induction keys with
  | nil => cases hc
  | cons x rest ih =>
    rw [List.pairwise_cons] at hd
    rcases List.mem_cons.1 hc with e | hmem
    · subst e
      simp [ConnectionManager.lookupLoop, hid]
    · have hx : x.val.ID ≠ id := fun hx => hd.1 c hmem (hx.trans hid.symm)
      simp [ConnectionManager.lookupLoop, hx, ih hd.2 hmem]

/-- C5: in a registry whose connection IDs are pairwise distinct, for the
registered connection `c` holding `id` (transport `s`), `ToConnection id message`
(and so the chat_app `Send` with that string id) returns having made exactly one
`WriteJSON`, of `message`, on `s`, and no write on any other transport; registry
and closes are untouched. -/
theorem ToConnection_unicast (id : String) (message : Message) (w : World) (c : ConnPtr)
    (s : Nat) (hd : w.connections.Pairwise (fun a b => a.val.ID ≠ b.val.ID))
    (hc : c ∈ w.connections) (hid : c.val.ID = id) (hs : c.val.Socket = some s) :
    ∃ w1, ConnectionManager.ToConnection id message w = Outcome.ok w1 ∧
      eventDispatcher.Send (AnyValue.str id) message w = Outcome.ok w1 ∧
      w1.writes = w.writes ++ [⟨s, message, (writeErr w s).isNone⟩] ∧
      w1.connections = w.connections ∧ w1.closes = w.closes := by
  unfold eventDispatcher.Send
  dsimp only
  unfold ConnectionManager.ToConnection
  rw [lookupLoop_present id c hid zeroConnection w.connections hd hc]
  cases he : writeErr w s with
  | none =>
    have hrun : ConnectionManager.Emit c.val message w =
        Outcome.ok { w with writes := w.writes ++ [⟨s, message, true⟩] } := by
      simp [ConnectionManager.Emit, hs, WriteJSON, he]
    exact ⟨_, hrun, hrun, rfl, rfl, rfl⟩
  | some err =>
    have hrun : ConnectionManager.Emit c.val message w =
        Outcome.ok (logLine ("Error sending message to " ++ c.val.ID ++ ": " ++ err)
          { w with writes := w.writes ++ [⟨s, message, false⟩] }) := by
      simp [ConnectionManager.Emit, hs, WriteJSON, he]
    exact ⟨_, hrun, hrun, rfl, rfl, rfl⟩

/-- Unicast to connection A of the sample state; a "ping" from A is answered to A alone. -/
theorem ToConnection_unicast_witness :
    (sampleWorld.connections.Pairwise (fun a b => a.val.ID ≠ b.val.ID) ∧
      sampleA ∈ sampleWorld.connections ∧ sampleA.val.ID = "c" ∧ sampleA.val.Socket = some 1) ∧
    (∃ w1, ConnectionManager.ToConnection "c" ⟨"pong", "x"⟩ sampleWorld = Outcome.ok w1 ∧
      eventDispatcher.Send (AnyValue.str "c") ⟨"pong", "x"⟩ sampleWorld = Outcome.ok w1 ∧
      w1.writes = sampleWorld.writes ++ [⟨1, ⟨"pong", "x"⟩, (writeErr sampleWorld 1).isNone⟩] ∧
      w1.connections = sampleWorld.connections ∧ w1.closes = sampleWorld.closes) ∧
    (eventDispatcher.Dispatch "c" ⟨"ping", "x"⟩ sampleWorld).world.writes =
      [⟨1, ⟨"pong", "x"⟩, true⟩] :=
  ⟨⟨by decide, by decide, rfl, rfl⟩,
    ToConnection_unicast "c" ⟨"pong", "x"⟩ sampleWorld sampleA 1 (by decide) (by decide) rfl rfl,
    by decide⟩

/-! ## The read loop (C6, C7) -/

theorem handleMessages_calls (ed : Option EventDispatcher) (conn : ConnPtr)
    (reads : List ReadResult) (w : World) :
    (ConnectionManager.handleMessages ed conn reads w).calls =
      (ConnectionManager.readLoop ed conn reads w).calls := by
  unfold ConnectionManager.handleMessages
  dsimp only
  split <;> rfl

/-- Whatever the dispatcher does, the calls made are an initial segment of the
messages read before the first error, each with the connection's own ID. -/
theorem readLoop_calls_initial (ed : Option EventDispatcher) (conn : ConnPtr)
    (msgs : List Message) (err : String) (later : List ReadResult) :
    ∀ w : World,
    (ConnectionManager.readLoop ed conn (msgs.map ReadResult.ok ++ ReadResult.error err :: later)
      w).calls <+: msgs.map (fun m => (conn.val.ID, m)) := by
  induction msgs with
  | nil =>
    intro w
    cases hs : conn.val.Socket <;> simp [ConnectionManager.readLoop, hs]
  | cons m rest ih =>
    intro w
    cases hs : conn.val.Socket with
    | none => simp [ConnectionManager.readLoop, hs]
    | some s =>
      cases ed with
      | none => simp [ConnectionManager.readLoop, hs]
      | some d =>
        cases hd : d.Dispatch conn.val.ID m w with
        | ok w1 =>
          simp only [List.map_cons, List.cons_append, ConnectionManager.readLoop, hs, hd]
          exact (List.prefix_cons_inj _).2 (ih w1)
        | panic w1 =>
          simp only [List.map_cons, List.cons_append, ConnectionManager.readLoop, hs, hd]
          exact (List.prefix_cons_inj _).2 List.nil_prefix
        | blocked w1 =>
          simp only [List.map_cons, List.cons_append, ConnectionManager.readLoop, hs, hd]
          exact (List.prefix_cons_inj _).2 List.nil_prefix

/-- With a dispatcher that always returns, the loop dispatches every message
read before the first error and exits normally at that error. -/
theorem readLoop_returns (d : EventDispatcher) (conn : ConnPtr) (s : Nat)
    (hs : conn.val.Socket = some s)
    (hret : ∀ id m u, ∃ u1, d.Dispatch id m u = Outcome.ok u1)
    (msgs : List Message) (err : String) (later : List ReadResult) :
    ∀ w : World,
    (ConnectionManager.readLoop (some d) conn
        (msgs.map ReadResult.ok ++ ReadResult.error err :: later) w).calls =
      msgs.map (fun m => (conn.val.ID, m)) ∧
    ∃ w1, (ConnectionManager.readLoop (some d) conn
        (msgs.map ReadResult.ok ++ ReadResult.error err :: later) w).outcome = Outcome.ok w1 ∧
      ((∀ id m u u1, d.Dispatch id m u = Outcome.ok u1 →
          u1.connections = u.connections ∧ u1.closes = u.closes) →
        w1.connections = w.connections ∧ w1.closes = w.closes) := by
  induction msgs with
  | nil =>
    intro w
    simp [ConnectionManager.readLoop, hs, logLine]
  | cons m rest ih =>
    intro w
    obtain ⟨u1, hu⟩ := hret conn.val.ID m w
    obtain ⟨hcalls, w1, hout, hpres⟩ := ih u1
    simp only [List.map_cons, List.cons_append, ConnectionManager.readLoop, hs, hu]
    refine ⟨congrArg (List.cons (conn.val.ID, m)) hcalls, w1, hout, fun hp => ?_⟩
    have h1 := hpres hp
    have h2 := hp conn.val.ID m w u1 hu
    exact ⟨h1.1.trans h2.1, h1.2.trans h2.2⟩

/-- C6: for every read sequence made of decoded messages `msgs` followed by a
first error (and anything after it), the calls of `Dispatch` made by
`handleMessages` are always an initial segment of `msgs` in receive order, each
with the connection's own ID; and when the connection has a transport and the
dispatcher returns from every call, they are exactly `msgs`, once each, in
order, with nothing dispatched at or after the error. -/
theorem handleMessages_dispatch_order (ed : Option EventDispatcher) (conn : ConnPtr)
    (msgs : List Message) (err : String) (later : List ReadResult) (w : World) :
    (ConnectionManager.handleMessages ed conn
        (msgs.map ReadResult.ok ++ ReadResult.error err :: later) w).calls <+:
      msgs.map (fun m => (conn.val.ID, m)) ∧
    ∀ d s, ed = some d → conn.val.Socket = some s →
      (∀ id m u, ∃ u1, d.Dispatch id m u = Outcome.ok u1) →
      (ConnectionManager.handleMessages ed conn
        (msgs.map ReadResult.ok ++ ReadResult.error err :: later) w).calls =
      msgs.map (fun m => (conn.val.ID, m)) := by
  rw [handleMessages_calls]
  refine ⟨readLoop_calls_initial ed conn msgs err later w, ?_⟩
  intro d s hed hs hret
  subst hed
  exact (readLoop_returns d conn s hs hret msgs err later w).1

theorem sampleDispatcher_returns :
    ∀ id m u, ∃ u1, sampleDispatcher.Dispatch id m u = Outcome.ok u1 := by
  intro id m u
  simp only [sampleDispatcher, ExampleEventDispatcher.Dispatch]
  split_ifs <;> exact ⟨_, rfl⟩

theorem sampleDispatcher_frame :
    ∀ id m u u1, sampleDispatcher.Dispatch id m u = Outcome.ok u1 →
      u1.connections = u.connections ∧ u1.closes = u.closes := by
  intro id m u u1
  simp only [sampleDispatcher, ExampleEventDispatcher.Dispatch]
  split_ifs <;> (intro h; cases h; exact ⟨rfl, rfl⟩)

/-- Two messages, an error, then a third message: exactly the first two are dispatched. -/
theorem handleMessages_dispatch_order_witness :
    (sampleA.val.Socket = some 1 ∧
      ∀ id m u, ∃ u1, sampleDispatcher.Dispatch id m u = Outcome.ok u1) ∧
    (ConnectionManager.handleMessages (some sampleDispatcher) sampleA
        ([⟨"ping", "1"⟩, ⟨"ping", "2"⟩].map ReadResult.ok ++
          ReadResult.error "EOF" :: [ReadResult.ok ⟨"ping", "3"⟩]) sampleWorld).calls =
      [⟨"ping", "1"⟩, ⟨"ping", "2"⟩].map (fun m => (sampleA.val.ID, m)) :=
  ⟨⟨rfl, sampleDispatcher_returns⟩,
    (handleMessages_dispatch_order (some sampleDispatcher) sampleA
      [⟨"ping", "1"⟩, ⟨"ping", "2"⟩] "EOF" [ReadResult.ok ⟨"ping", "3"⟩] sampleWorld).2
      sampleDispatcher 1 rfl rfl sampleDispatcher_returns⟩

theorem handleMessages_outcome_of_ok (ed : Option EventDispatcher) (conn : ConnPtr)
    (reads : List ReadResult) (w w1 : World)
    (h : (ConnectionManager.readLoop ed conn reads w).outcome = Outcome.ok w1) :
    (ConnectionManager.handleMessages ed conn reads w).outcome =
      ConnectionManager.RemoveConnection conn w1 := by
  unfold ConnectionManager.handleMessages
  dsimp only
  rw [h]

/-- C7: for a connection with transport `s`, a dispatcher that returns from
every call, and every read sequence containing an error, `handleMessages`
returns; its exit is the single deferred `RemoveConnection` applied to the state
`w1` in which the loop ended, so afterwards the connection is not registered
and `s` is closed, exactly one close (of `s`) was added, and every other
connection is registered after it iff it was in `w1`.  When the dispatcher
itself leaves registry and closes alone, the same holds relative to the
initial state. -/
theorem handleMessages_cleanup (d : EventDispatcher) (conn : ConnPtr) (s : Nat)
    (hs : conn.val.Socket = some s)
    (hret : ∀ id m u, ∃ u1, d.Dispatch id m u = Outcome.ok u1)
    (msgs : List Message) (err : String) (later : List ReadResult) (w : World) :
    ∃ w1 w2,
      (ConnectionManager.readLoop (some d) conn
        (msgs.map ReadResult.ok ++ ReadResult.error err :: later) w).outcome = Outcome.ok w1 ∧
      (ConnectionManager.handleMessages (some d) conn
        (msgs.map ReadResult.ok ++ ReadResult.error err :: later) w).outcome = Outcome.ok w2 ∧
      ConnectionManager.RemoveConnection conn w1 = Outcome.ok w2 ∧
      conn ∉ w2.connections ∧ s ∈ w2.closes ∧ w2.closes = w1.closes ++ [s] ∧
      (∀ x, x ≠ conn → (x ∈ w2.connections ↔ x ∈ w1.connections)) ∧
      ((∀ id m u u1, d.Dispatch id m u = Outcome.ok u1 →
          u1.connections = u.connections ∧ u1.closes = u.closes) →
        w2.closes = w.closes ++ [s] ∧
        ∀ x, x ∈ w2.connections ↔ (x ∈ w.connections ∧ x ≠ conn)) := by
  obtain ⟨_, w1, hout, hpres⟩ := readLoop_returns d conn s hs hret msgs err later w
  have hrem := RemoveConnection_of_socket conn w1 s hs
  refine ⟨w1, _, hout, (handleMessages_outcome_of_ok _ _ _ _ _ hout).trans hrem, hrem,
    ?_, ?_, rfl, ?_, ?_⟩
  · exact fun hm => ((mem_mapDelete conn conn _).1 hm).2 rfl
  · simp [Close]
  · intro x hx
    show x ∈ mapDelete conn w1.connections ↔ _
    rw [mem_mapDelete]
    exact ⟨fun h => h.1, fun h => ⟨h, hx⟩⟩
  · intro hp
    obtain ⟨hc, hcl⟩ := hpres hp
    refine ⟨?_, fun x => ?_⟩
    · show w1.closes ++ [s] = _
      rw [hcl]
    · show x ∈ mapDelete conn w1.connections ↔ _
      rw [mem_mapDelete, hc]

/-- The read loop of connection A on one message followed by an error. -/
theorem handleMessages_cleanup_witness :
    (sampleA.val.Socket = some 1 ∧
      ∀ id m u, ∃ u1, sampleDispatcher.Dispatch id m u = Outcome.ok u1) ∧
    ∃ w2,
      (ConnectionManager.handleMessages (some sampleDispatcher) sampleA
        ([⟨"ping", "1"⟩].map ReadResult.ok ++ ReadResult.error "EOF" :: []) sampleWorld).outcome =
          Outcome.ok w2 ∧
      sampleA ∉ w2.connections ∧ 1 ∈ w2.closes ∧
      w2.closes = sampleWorld.closes ++ [1] ∧
      ∀ x, x ∈ w2.connections ↔ (x ∈ sampleWorld.connections ∧ x ≠ sampleA) := by
  obtain ⟨_, w2, _, h2, _, h4, h5, _, _, h8⟩ :=
    handleMessages_cleanup sampleDispatcher sampleA 1 rfl sampleDispatcher_returns
      [⟨"ping", "1"⟩] "EOF" [] sampleWorld
  exact ⟨⟨rfl, sampleDispatcher_returns⟩, w2, h2, h4, h5, (h8 sampleDispatcher_frame).1,
    (h8 sampleDispatcher_frame).2⟩

/-! ## Uniqueness of identities (C8) -/

theorem broadcastLoop_frame (message : Message) (keys : List ConnPtr) :
    ∀ w : World,
    (ConnectionManager.broadcastLoop message keys w).world.connections = w.connections ∧
    (ConnectionManager.broadcastLoop message keys w).world.idsIssued = w.idsIssued := by
  induction keys with
  | nil => intro w; exact ⟨rfl, rfl⟩
  | cons c rest ih =>
    intro w
    cases hs : c.val.Socket with
    | none => simp [ConnectionManager.broadcastLoop, hs, Outcome.world]
    | some s =>
      cases he : writeErr w s with
      | none =>
        simp only [ConnectionManager.broadcastLoop, hs, WriteJSON, he]
        exact ih _
      | some err =>
        simp only [ConnectionManager.broadcastLoop, hs, WriteJSON, he]
        exact ih _

theorem Emit_frame (conn : Connection) (message : Message) (w : World) :
    (ConnectionManager.Emit conn message w).world.connections = w.connections ∧
    (ConnectionManager.Emit conn message w).world.idsIssued = w.idsIssued := by
  cases hs : conn.Socket with
  | none => simp [ConnectionManager.Emit, hs, Outcome.world]
  | some s =>
    cases he : writeErr w s <;>
      simp [ConnectionManager.Emit, hs, WriteJSON, he, Outcome.world, logLine]

theorem RemoveConnection_world_idsIssued (conn : ConnPtr) (w : World) :
    (ConnectionManager.RemoveConnection conn w).world.idsIssued = w.idsIssued := by
  unfold ConnectionManager.RemoveConnection
  cases conn.val.Socket <;> rfl

theorem sampleGen_injective : Function.Injective sampleGen := by
  intro a b h
  have hl : List.replicate (a + 1) 'c' = List.replicate (b + 1) 'c' :=
    congrArg String.data h
  have hlen := congrArg List.length hl
  rw [List.length_replicate, List.length_replicate] at hlen
  omega

theorem RegistryInv_init (gen : Nat → String) (failing : List (Nat × String)) :
    RegistryInv gen (NewConnectionManager failing) := by
  refine ⟨List.Pairwise.nil, ?_⟩
  intro c hc
  cases hc

/-- In a state satisfying the invariant, the freshly generated ID is held by no
registered connection. -/
theorem fresh_of_inv (gen : Nat → String) (hgen : Function.Injective gen) (w : World)
    (h : RegistryInv gen w) : ∀ c ∈ w.connections, c.val.ID ≠ gen w.idsIssued := by
  intro c hc he
  obtain ⟨i, hi, hid⟩ := h.2 c hc
  have : i = w.idsIssued := hgen (hid.symm.trans he)
  omega

theorem AddConnection_spec (gen : Nat → String) (hgen : Function.Injective gen) (w : World)
    (h : RegistryInv gen w) (cm : Nat) (sock : Option Nat) :
    (ConnectionManager.AddConnection gen cm sock w).1.val = ⟨gen w.idsIssued, sock, some cm⟩ ∧
    (ConnectionManager.AddConnection gen cm sock w).1 ∉ w.connections ∧
    (ConnectionManager.AddConnection gen cm sock w).2.connections =
      w.connections ++ [(ConnectionManager.AddConnection gen cm sock w).1] ∧
    (ConnectionManager.AddConnection gen cm sock w).2.idsIssued = w.idsIssued + 1 := by
  have hnew : (⟨w.nextAddr, ⟨gen w.idsIssued, sock, some cm⟩⟩ : ConnPtr) ∉ w.connections :=
    fun hm => fresh_of_inv gen hgen w h _ hm rfl
  refine ⟨rfl, hnew, ?_, rfl⟩
  exact if_neg hnew

theorem RegistryInv_step (gen : Nat → String) (hgen : Function.Injective gen) (call : Call)
    (w : World) (h : RegistryInv gen w) : RegistryInv gen (call.run gen w) := by
  cases call with
  | AddConnection cm sock =>
    obtain ⟨hval, _, hcon, hids⟩ := AddConnection_spec gen hgen w h cm sock
    have hfresh := fresh_of_inv gen hgen w h
    refine ⟨?_, ?_⟩
    · show (ConnectionManager.AddConnection gen cm sock w).2.connections.Pairwise _
      rw [hcon, List.pairwise_append]
      refine ⟨h.1, List.pairwise_singleton _ _, ?_⟩
      intro a ha b hb
      rw [List.mem_singleton] at hb
      rw [hb, hval]
      exact hfresh a ha
    · intro c hc
      change c ∈ (ConnectionManager.AddConnection gen cm sock w).2.connections at hc
      show ∃ i, i < (ConnectionManager.AddConnection gen cm sock w).2.idsIssued ∧ _
      rw [hcon, List.mem_append, List.mem_singleton] at hc
      rw [hids]
      rcases hc with hc | hc
      · obtain ⟨i, hi, hid⟩ := h.2 c hc
        exact ⟨i, by omega, hid⟩
      · exact ⟨w.idsIssued, by omega, by rw [hc, hval]⟩
  | RemoveConnection conn =>
    refine ⟨?_, ?_⟩
    · show (ConnectionManager.RemoveConnection conn w).world.connections.Pairwise _
      rw [RemoveConnection_world_connections]
      exact h.1.sublist (List.filter_sublist _)
    · intro c hc
      change c ∈ (ConnectionManager.RemoveConnection conn w).world.connections at hc
      show ∃ i, i < (ConnectionManager.RemoveConnection conn w).world.idsIssued ∧ _
      rw [RemoveConnection_world_connections, mem_mapDelete] at hc
      rw [RemoveConnection_world_idsIssued]
      exact h.2 c hc.1
  | Broadcast message =>
    have hf := broadcastLoop_frame message w.connections w
    unfold RegistryInv
    show (ConnectionManager.broadcastLoop message w.connections w).world.connections.Pairwise _ ∧
      ∀ c ∈ (ConnectionManager.broadcastLoop message w.connections w).world.connections,
        ∃ i, i < (ConnectionManager.broadcastLoop message w.connections w).world.idsIssued ∧ _
    rw [hf.1, hf.2]
    exact h
  | ToConnection id message =>
    have hf := Emit_frame (ConnectionManager.lookupLoop id w.connections zeroConnection) message w
    unfold RegistryInv
    show (ConnectionManager.Emit _ message w).world.connections.Pairwise _ ∧
      ∀ c ∈ (ConnectionManager.Emit _ message w).world.connections,
        ∃ i, i < (ConnectionManager.Emit _ message w).world.idsIssued ∧ _
    rw [hf.1, hf.2]
    exact h

theorem RegistryInv_runCalls (gen : Nat → String) (hgen : Function.Injective gen)
    (calls : List Call) : ∀ w : World, RegistryInv gen w → RegistryInv gen (runCalls gen calls w) := by
  induction calls with
  | nil => intro w h; exact h
  | cons c cs ih => intro w h; exact ih _ (RegistryInv_step gen hgen c w h)

/-- C8: with a generator that never returns the same string twice, in every
state reached from `NewConnectionManager` by any sequence of `AddConnection`,
`RemoveConnection`, `Broadcast` and `ToConnection` calls the registered IDs are
pairwise distinct; and `AddConnection` in such a state appends exactly one
connection, not registered before, carrying the freshly generated ID (held by
no registered connection), the given transport handle and the manager's
address. -/
theorem registry_ids_distinct (gen : Nat → String) (hgen : Function.Injective gen)
    (failing : List (Nat × String)) (calls : List Call) :
    (runCalls gen calls (NewConnectionManager failing)).connections.Pairwise
      (fun a b => a.val.ID ≠ b.val.ID) ∧
    ∀ cm sock,
      (ConnectionManager.AddConnection gen cm sock
          (runCalls gen calls (NewConnectionManager failing))).1.val =
        ⟨gen (runCalls gen calls (NewConnectionManager failing)).idsIssued, sock, some cm⟩ ∧
      (∀ c ∈ (runCalls gen calls (NewConnectionManager failing)).connections,
        c.val.ID ≠ gen (runCalls gen calls (NewConnectionManager failing)).idsIssued) ∧
      (ConnectionManager.AddConnection gen cm sock
          (runCalls gen calls (NewConnectionManager failing))).1 ∉
        (runCalls gen calls (NewConnectionManager failing)).connections ∧
      (ConnectionManager.AddConnection gen cm sock
          (runCalls gen calls (NewConnectionManager failing))).2.connections =
        (runCalls gen calls (NewConnectionManager failing)).connections ++
          [(ConnectionManager.AddConnection gen cm sock
            (runCalls gen calls (NewConnectionManager failing))).1] := by
  have hinv := RegistryInv_runCalls gen hgen calls _ (RegistryInv_init gen failing)
  refine ⟨hinv.1, fun cm sock => ?_⟩
  obtain ⟨h1, h2, h3, _⟩ := AddConnection_spec gen hgen _ hinv cm sock
  exact ⟨h1, fresh_of_inv gen hgen _ hinv, h2, h3⟩

/-- A sample run with a non-repeating generator. -/
theorem registry_ids_distinct_witness :
    Function.Injective sampleGen ∧
    (runCalls sampleGen sampleCalls (NewConnectionManager [])).connections.Pairwise
      (fun a b => a.val.ID ≠ b.val.ID) ∧
    (runCalls sampleGen sampleCalls (NewConnectionManager [])).connections =
      [⟨1, ⟨"cc", some 2, some 0⟩⟩, ⟨2, ⟨"ccc", some 3, some 0⟩⟩] ∧
    (ConnectionManager.AddConnection sampleGen 0 (some 4)
        (runCalls sampleGen sampleCalls (NewConnectionManager []))).2.connections =
      (runCalls sampleGen sampleCalls (NewConnectionManager [])).connections ++
        [(ConnectionManager.AddConnection sampleGen 0 (some 4)
          (runCalls sampleGen sampleCalls (NewConnectionManager []))).1] :=
  ⟨sampleGen_injective,
    (registry_ids_distinct sampleGen sampleGen_injective [] sampleCalls).1, by decide,
    ((registry_ids_distinct sampleGen sampleGen_injective [] sampleCalls).2 0 (some 4)).2.2.2⟩

end GoSocketify
